import Mathlib

/-!
Verification of the matrix/vector accessor of linopy (`src/linopy/matrices.py`)
against its natural-language specification.

Shallow embedding conventions:
* numpy 1-D arrays are `List α`; fancy assignment `vector[indices] = values`
  is `scatter` (last write wins, out-of-range writes are out of contract);
* `float` values that may be `np.nan` are `Option ℚ` (`none` = NaN) — no
  float arithmetic occurs in this component, values are only moved around;
* pandas flat tables are lists of row structures plus booleans recording
  which optional columns ("solution", "dual") are present;
* Python exceptions are an `Except PyError` result; `ValueError` and
  `AttributeError` are distinct constructors;
* `functools.cached_property` is explicit state passing: every accessor
  method returns its value together with the updated cache state.
-/

namespace Linopy

/-- numpy fancy assignment `vector[indices] = values`: write each
(index, value) pair in iteration order, so duplicate indices are
last-write-wins.  An out-of-range index leaves the vector unchanged
(the source treats out-of-range indices as a contract violation). -/
def scatter {α : Type} (v : List α) (pairs : List (Nat × α)) : List α :=
  pairs.foldl (fun acc p => acc.set p.1 p.2) v

/-- Python `max` over a list of naturals (callers only use it on
non-empty lists; on the empty list Python raises, which callers of
`maxNat` guard for separately). -/
def maxNat (l : List Nat) : Nat :=
  l.foldl Nat.max 0

/-- Embedding of `create_vector` (src/linopy/matrices.py): build a dense
vector of size `max(indices) + 1` (or the explicit `shape`), filled with
`fill_value`, then scatter `values` at `indices`.  Returns `none` when
`indices` is empty and no shape is given (Python: `max([])` raises
`ValueError`). -/
def create_vector {α : Type} (indices : List Nat) (values : List α)
    (fill_value : α) (shape : Option Nat) : Option (List α) :=
  match shape with
  | some s => some (scatter (List.replicate s fill_value) (indices.zip values))
  | none =>
    match indices with
    | [] => none
    | _ :: _ =>
      some (scatter (List.replicate (maxNat indices + 1) fill_value)
        (indices.zip values))

/-- A float that may be `np.nan`: `none` models NaN, `some q` a number.
No arithmetic is performed on these values in this component. -/
abbrev Val : Type := Option ℚ

/-- One row of the flat variable table (`m.variables.flat`).
Modelled from the spec: the flattening routine itself lives outside this
slice; §3 gives its row layout — `key` (dense 0-based position in
iteration order), `labels` (unique integer identifier, −1 sentinel for
masked entries), bounds, and post-solve `solution`. -/
structure VarRow where
  key : Nat
  labels : Int
  lower : Val
  upper : Val
  solution : Val
deriving DecidableEq, Repr

/-- The flat variable table: rows plus presence of the optional
`solution` column (pandas column membership, `"solution" in df`). -/
structure VarTable where
  rows : List VarRow
  hasSolution : Bool
deriving DecidableEq, Repr

/-- One row of the flat constraint table (`m.constraints.flat`),
modelled from the spec (§3) like `VarRow`. -/
structure ConRow where
  key : Nat
  labels : Int
  sign : String
  rhs : Val
  dual : Val
deriving DecidableEq, Repr

/-- The flat constraint table: rows plus presence of the optional
`dual` column. -/
structure ConTable where
  rows : List ConRow
  hasDual : Bool
deriving DecidableEq, Repr

/-- One term of a flattened linear objective (`m.objective.flat` for a
`LinearExpression`): a variable label and a coefficient. -/
structure LinTerm where
  vars : Int
  coeffs : ℚ
deriving DecidableEq, Repr

/-- One term of a flattened quadratic objective: two variable-label
factor slots (−1 = "no variable" sentinel) and a coefficient. -/
structure QuadTerm where
  vars1 : Int
  vars2 : Int
  coeffs : ℚ
deriving DecidableEq, Repr

/-- The flattened objective (`m.objective.flat`), tagged by whether the
objective expression is a `LinearExpression` or a `QuadraticExpression`
(the `isinstance` check in `MatrixAccessor.c`). -/
inductive ObjectiveFlat where
  | linear (terms : List LinTerm)
  | quadratic (terms : List QuadTerm)
deriving DecidableEq, Repr

/-- The state of the model collaborator as the accessor observes it:
solver status string, the flat tables its flattening routines would
currently produce, the flattened objective, and the full quadratic
coefficient matrix `m.objective.expression.to_matrix()` (indexed by
variable label on both axes). -/
structure ModelData where
  status : String
  vars_flat : VarTable
  cons_flat : ConTable
  objective : ObjectiveFlat
  QfullM : Int → Int → ℚ

/-- Embedding of `m.is_linear`: whether the model's objective is purely linear. -/
def ModelData.is_linear (m : ModelData) : Bool :=
  match m.objective with
  | .linear _ => true
  | .quadratic _ => false

/-- Python exceptions raised by the accessor, kept as distinct
conditions so callers can branch on them. -/
inductive PyError where
  | valueError (msg : String)
  | attributeError (msg : String)
  | typeError (msg : String)
deriving DecidableEq, Repr

/-- The `MatrixAccessor` instance state: the (non-owning) reference to
the model and the four `cached_property` slots of its `__dict__`
(`flat_vars`, `flat_cons`, `sol`, `dual`); `none` = not cached. -/
structure MatrixAccessor where
  parent : ModelData
  cache_flat_vars : Option VarTable
  cache_flat_cons : Option ConTable
  cache_sol : Option (List Val)
  cache_dual : Option (List Val)

/-- A fresh accessor for a model: no property cached yet. -/
def MatrixAccessor.init (m : ModelData) : MatrixAccessor :=
  ⟨m, none, none, none, none⟩

/-- Embedding of `cached_property flat_vars`: return the cached table or compute it
from the model and cache it. -/
def MatrixAccessor.flat_vars (a : MatrixAccessor) :
    VarTable × MatrixAccessor :=
  match a.cache_flat_vars with
  | some t => (t, a)
  | none => (a.parent.vars_flat,
      { a with cache_flat_vars := some a.parent.vars_flat })

/-- Embedding of `cached_property flat_cons`: return the cached table or compute it
from the model and cache it. -/
def MatrixAccessor.flat_cons (a : MatrixAccessor) :
    ConTable × MatrixAccessor :=
  match a.cache_flat_cons with
  | some t => (t, a)
  | none => (a.parent.cons_flat,
      { a with cache_flat_cons := some a.parent.cons_flat })

/-- Embedding of `clean_cached_properties`: for each of `flat_vars`, `flat_cons`,
`sol`, `dual`, delete the cached slot when present — afterwards every
slot is empty. -/
def MatrixAccessor.clean_cached_properties (a : MatrixAccessor) :
    MatrixAccessor :=
  { a with cache_flat_vars := none, cache_flat_cons := none,
           cache_sol := none, cache_dual := none }

/-- Embedding of `vlabels`: `create_vector(df.key, df.labels, -1)` over the flat
variable table (`none` = the `ValueError` of `max([])`). -/
def MatrixAccessor.vlabels (a : MatrixAccessor) :
    Option (List Int) × MatrixAccessor :=
  let p := a.flat_vars
  (create_vector (p.1.rows.map VarRow.key) (p.1.rows.map VarRow.labels)
    (-1) none, p.2)

/-- Embedding of `lb`: `create_vector(df.key, df.lower)` with NaN fill. -/
def MatrixAccessor.lb (a : MatrixAccessor) :
    Option (List Val) × MatrixAccessor :=
  let p := a.flat_vars
  (create_vector (p.1.rows.map VarRow.key) (p.1.rows.map VarRow.lower)
    none none, p.2)

/-- Embedding of `ub`: `create_vector(df.key, df.upper)` with NaN fill. -/
def MatrixAccessor.ub (a : MatrixAccessor) :
    Option (List Val) × MatrixAccessor :=
  let p := a.flat_vars
  (create_vector (p.1.rows.map VarRow.key) (p.1.rows.map VarRow.upper)
    none none, p.2)

/-- Embedding of `clabels`: empty flat constraint table short-circuits to an empty
integer array; otherwise `create_vector(df.key, df.labels, fill_value=-1)`. -/
def MatrixAccessor.clabels (a : MatrixAccessor) :
    Option (List Int) × MatrixAccessor :=
  let p := a.flat_cons
  if p.1.rows.isEmpty then (some [], p.2)
  else (create_vector (p.1.rows.map ConRow.key) (p.1.rows.map ConRow.labels)
    (-1) none, p.2)

/-- Embedding of `sol` (a `cached_property`): raise `ValueError` unless status is
`"ok"`; if the cached flat variable table lacks the solution column,
drop the cache and recompute; if the recomputed table still lacks the
column, the attribute access `df.solution` raises `AttributeError`;
otherwise scatter the solution column with NaN fill.  The result is
cached only on success. -/
def MatrixAccessor.sol (a : MatrixAccessor) :
    Except PyError (List Val) × MatrixAccessor :=
  match a.cache_sol with
  | some v => (.ok v, a)
  | none =>
    if a.parent.status = "ok" then
      let p := a.flat_vars
      let a1 := if p.1.hasSolution then p.2
                else { p.2 with cache_flat_vars := none }
      let q := a1.flat_vars
      if q.1.hasSolution then
        match create_vector (q.1.rows.map VarRow.key)
            (q.1.rows.map VarRow.solution) none none with
        | some v => (.ok v, { q.2 with cache_sol := some v })
        | none => (.error (.valueError "max() arg is an empty sequence"), q.2)
      else
        (.error (.attributeError
          "'DataFrame' object has no attribute 'solution'"), q.2)
    else
      (.error (.valueError "Model is not optimized."), a)

/-- Embedding of `dual` (a `cached_property`): raise `ValueError` unless status is
`"ok"`; if the cached flat constraint table lacks the dual column, drop
the cache and recompute; if the recomputed table still lacks it, raise
`AttributeError`; otherwise scatter the dual column with NaN fill.  The
result is cached only on success. -/
def MatrixAccessor.dual (a : MatrixAccessor) :
    Except PyError (List Val) × MatrixAccessor :=
  match a.cache_dual with
  | some v => (.ok v, a)
  | none =>
    if a.parent.status = "ok" then
      let p := a.flat_cons
      let a1 := if p.1.hasDual then p.2
                else { p.2 with cache_flat_cons := none }
      let q := a1.flat_cons
      if q.1.hasDual then
        match create_vector (q.1.rows.map ConRow.key)
            (q.1.rows.map ConRow.dual) none none with
        | some v => (.ok v, { q.2 with cache_dual := some v })
        | none => (.error (.valueError "max() arg is an empty sequence"), q.2)
      else
        (.error (.attributeError
          "Underlying is optimized but does not have dual values stored."), q.2)
    else
      (.error (.valueError "Model is not optimized."), a)

/-- Embedding of `sense`: scatter the sign column with empty-string fill. -/
def MatrixAccessor.sense (a : MatrixAccessor) :
    Option (List String) × MatrixAccessor :=
  let p := a.flat_cons
  (create_vector (p.1.rows.map ConRow.key) (p.1.rows.map ConRow.sign)
    "" none, p.2)

/-- Embedding of `b`: scatter the rhs column with NaN fill. -/
def MatrixAccessor.b (a : MatrixAccessor) :
    Option (List Val) × MatrixAccessor :=
  let p := a.flat_cons
  (create_vector (p.1.rows.map ConRow.key) (p.1.rows.map ConRow.rhs)
    none none, p.2)

/-- The `(vars, coeffs)` pairs `MatrixAccessor.c` scatters: for a
quadratic objective, keep only the terms where one factor slot holds the
sentinel −1 (`ds[(ds.vars1 == -1) | (ds.vars2 == -1)]`) and select the
slot holding the real label
(`ds.vars1.where(ds.vars1 != -1, ds.vars2)`). -/
def objTermPairs (o : ObjectiveFlat) : List (Int × ℚ) :=
  match o with
  | .linear ts => ts.map (fun t => (t.vars, t.coeffs))
  | .quadratic ts =>
    (ts.filter (fun t => t.vars1 == -1 || t.vars2 == -1)).map
      (fun t => (if t.vars1 == -1 then t.vars2 else t.vars1, t.coeffs))

/-- Embedding of `flat_vars.set_index("labels").key` used as a mapping: the key of
the row carrying a given label (`none` when the label is absent; the
table's labels are unique apart from the sentinel). -/
def keyOfLabel (t : VarTable) (lab : Int) : Option Nat :=
  (t.rows.find? (fun r => r.labels == lab)).map VarRow.key

/-- Embedding of `c`: flatten the objective, for a quadratic objective keep only the
purely-linear terms and select the real factor slot, map labels to dense
keys through the flat variable table, and scatter the coefficients with
fill `0.0` into a vector of length `flat_vars.key.max() + 1`.
A term label absent from the table maps to NaN (indexing then fails);
an empty flat variable table makes `key.max()` NaN (`np.full` then
fails with `TypeError`). -/
def MatrixAccessor.c (a : MatrixAccessor) :
    Except PyError (List Val) × MatrixAccessor :=
  let pairs := objTermPairs a.parent.objective
  let p := a.flat_vars
  match (pairs.map Prod.fst).mapM (keyOfLabel p.1) with
  | none => (.error (.valueError "cannot index with NaN"), p.2)
  | some ks =>
    if p.1.rows.isEmpty then
      (.error (.typeError
        "'float' object cannot be interpreted as an integer"), p.2)
    else
      match create_vector ks (pairs.map (fun q => (some q.2 : Val)))
          (some 0) (some (maxNat (p.1.rows.map VarRow.key) + 1)) with
      | some v => (.ok v, p.2)
      | none => (.error (.valueError "unreachable"), p.2)

/-- Embedding of `Q`: `None` for a purely linear objective; otherwise the full
quadratic coefficient matrix indexed on both axes by the `vlabels`
vector (`to_matrix()[vlabels][:, vlabels]`). -/
def MatrixAccessor.Q (a : MatrixAccessor) :
    Except PyError (Option (List (List ℚ))) × MatrixAccessor :=
  if a.parent.is_linear then (.ok none, a)
  else
    let p := a.vlabels
    match p.1 with
    | some vl =>
      (.ok (some (vl.map (fun i => vl.map (fun j => a.parent.QfullM i j)))),
        p.2)
    | none => (.error (.valueError "max() arg is an empty sequence"), p.2)

theorem scatter_nil {α : Type} (v : List α) : scatter v [] = v := rfl

theorem scatter_concat {α : Type} (v : List α) (ps : List (Nat × α))
    (p : Nat × α) :
    scatter v (ps ++ [p]) = (scatter v ps).set p.1 p.2 := by
  simp [scatter, List.foldl_append]

theorem scatter_length {α : Type} (v : List α) (ps : List (Nat × α)) :
    (scatter v ps).length = v.length := by
  induction ps using List.reverseRecOn with
  | nil => rfl
  | append_singleton ps p ih => simp [scatter_concat, ih]

theorem getElem?_scatter_of_not_mem {α : Type} (v : List α)
    (ps : List (Nat × α)) (i : Nat) (h : i ∉ ps.map Prod.fst) :
    (scatter v ps)[i]? = v[i]? := by
  induction ps using List.reverseRecOn with
  | nil => rfl
  | append_singleton ps p ih =>
    simp only [List.map_append, List.map_cons, List.map_nil, List.mem_append,
      List.mem_singleton, not_or] at h
    rw [scatter_concat, List.getElem?_set_ne (by exact fun hc => h.2 hc.symm),
      ih h.1]

theorem mem_of_getLast?_eq {α : Type} {l : List α} {a : α}
    (h : l.getLast? = some a) : a ∈ l := by
  induction l using List.reverseRecOn with
  | nil => simp at h
  | append_singleton xs x ih =>
    rw [List.getLast?_concat] at h
    injection h with h
    simp [h]

theorem getElem?_scatter_of_getLast {α : Type} (v : List α)
    (ps : List (Nat × α)) (i : Nat) (q : Nat × α) (hi : i < v.length)
    (h : (ps.filter (fun p => p.1 == i)).getLast? = some q) :
    (scatter v ps)[i]? = some q.2 := by
  induction ps using List.reverseRecOn with
  | nil => simp at h
  | append_singleton ps p ih =>
    rw [List.filter_append] at h
    by_cases hp : p.1 = i
    · have hq : (ps.filter (fun p => p.1 == i) ++ [p]).getLast? = some q := by
        simpa [List.filter_cons, hp] using h
      rw [List.getLast?_concat] at hq
      injection hq with hq
      subst hq
      rw [scatter_concat, hp]
      exact List.getElem?_set_eq_of_lt p.2 (by rwa [scatter_length])
    · simp only [List.filter_cons, List.filter_nil, beq_iff_eq, hp, if_false,
        List.append_nil] at h
      rw [scatter_concat, List.getElem?_set_ne hp, ih h]

theorem le_foldl_max (l : List Nat) (a : Nat) : a ≤ l.foldl Nat.max a := by
  induction l generalizing a with
  | nil => exact le_refl a
  | cons x xs ih => exact le_trans (Nat.le_max_left a x) (ih (Nat.max a x))

theorem le_maxNat_of_mem {l : List Nat} {x : Nat} (h : x ∈ l) :
    x ≤ maxNat l := by
  unfold maxNat
  generalize 0 = a
  induction l generalizing a with
  | nil => simp at h
  | cons y ys ih =>
    rcases List.mem_cons.mp h with h | h
    · subst h
      exact le_trans (Nat.le_max_right a x) (le_foldl_max ys (Nat.max a x))
    · exact ih h (Nat.max a y)

theorem maxNat_le {l : List Nat} {b : Nat} (h : ∀ x ∈ l, x ≤ b) :
    maxNat l ≤ b := by
  unfold maxNat
  have : ∀ a, a ≤ b → List.foldl Nat.max a l ≤ b := by
    induction l with
    | nil => exact fun a ha => ha
    | cons y ys ih =>
      intro a ha
      exact ih (fun x hx => h x (List.mem_cons_of_mem y hx)) _
        (Nat.max_le.mpr ⟨ha, h y (List.mem_cons_self y ys)⟩)
  exact this 0 (Nat.zero_le b)

/-- C1: for non-empty `idx` with parallel `vals` and `shape` omitted,
`create_vector` returns a vector of length `max(idx)+1`; for every index
occurring in `idx` the entry is the value paired with the last occurrence
of that index in iteration order (last-write-wins, no accumulation), and
every position not occurring in `idx` holds `fill_value`. -/
theorem create_vector_noshape_spec {α : Type} (idx : List Nat)
    (vals : List α) (fill_value : α) (hne : idx ≠ [])
    (hlen : vals.length = idx.length) :
    ∃ v, create_vector idx vals fill_value none = some v ∧
      v.length = maxNat idx + 1 ∧
      (∀ i q, ((idx.zip vals).filter (fun p => p.1 == i)).getLast? = some q →
        v[i]? = some q.2) ∧
      (∀ i, i < maxNat idx + 1 → i ∉ idx → v[i]? = some fill_value) := by
  obtain ⟨x, xs, rfl⟩ := List.exists_cons_of_ne_nil hne
  refine ⟨_, rfl, ?_, ?_, ?_⟩
  · rw [scatter_length, List.length_replicate]
  · intro i q hq
    have hqf := mem_of_getLast?_eq hq
    have hqmem : q ∈ (x :: xs).zip vals := List.mem_of_mem_filter hqf
    have hqi : q.1 = i := beq_iff_eq.mp (List.mem_filter.mp hqf).2
    have hile : i ≤ maxNat (x :: xs) := by
      have : q.1 ∈ x :: xs := (List.of_mem_zip hqmem).1
      rw [hqi] at this
      exact le_maxNat_of_mem this
    exact getElem?_scatter_of_getLast _ _ _ _
      (by rw [List.length_replicate]; omega) hq
  · intro i hi hnotmem
    rw [getElem?_scatter_of_not_mem]
    · rw [List.getElem?_replicate, if_pos hi]
    · intro hmem
      obtain ⟨p, hp, hpi⟩ := List.mem_map.mp hmem
      exact hnotmem (hpi ▸ (List.of_mem_zip hp).1)

theorem getElem?_scatter_range' {β : Type} (f : List β) (v : List β)
    (i k : Nat) (hk : k < v.length) :
    (scatter v ((List.range' i f.length).zip f))[k]? =
      if i ≤ k ∧ k < i + f.length then f[k - i]? else v[k]? := by
  induction f generalizing v i with
  | nil =>
    have hz : (List.range' i (List.length ([] : List β))).zip ([] : List β)
        = [] := rfl
    rw [hz, scatter_nil, if_neg (by simp only [List.length_nil]; omega)]
  | cons x xs ih =>
    have hstep : List.range' i (x :: xs).length
        = i :: List.range' (i + 1) xs.length := by
      simp [List.range'_succ]
    rw [hstep]
    have hzip : (i :: List.range' (i + 1) xs.length).zip (x :: xs)
        = (i, x) :: (List.range' (i + 1) xs.length).zip xs := rfl
    rw [hzip]
    have hsc : scatter v ((i, x) :: (List.range' (i + 1) xs.length).zip xs)
        = scatter (v.set i x) ((List.range' (i + 1) xs.length).zip xs) := rfl
    rw [hsc, ih (v.set i x) (i + 1) (by simpa using hk)]
    by_cases h1 : i + 1 ≤ k ∧ k < i + 1 + xs.length
    · rw [if_pos h1, if_pos (by simp only [List.length_cons]; omega)]
      have hsub : k - i = (k - (i + 1)) + 1 := by omega
      rw [hsub, List.getElem?_cons_succ]
    · rw [if_neg h1]
      by_cases h2 : k = i
      · subst h2
        rw [if_pos (by simp only [List.length_cons]; omega)]
        simp [List.getElem?_set_eq_of_lt x hk]
      · rw [List.getElem?_set_ne (by omega),
          if_neg (by simp only [List.length_cons]; omega)]

theorem scatter_replicate_range {β : Type} (d : β) (f : List β) :
    scatter (List.replicate f.length d) ((List.range f.length).zip f) = f := by
  apply List.ext_getElem?
  intro k
  by_cases hk : k < f.length
  · rw [List.range_eq_range',
      getElem?_scatter_range' f (List.replicate f.length d) 0 k
        (by simpa using hk)]
    simp [hk]
  · have hnone1 : f[k]? = none := List.getElem?_eq_none (by omega)
    have hnone2 : (scatter (List.replicate f.length d)
        ((List.range f.length).zip f))[k]? = none :=
      List.getElem?_eq_none (by rw [scatter_length, List.length_replicate]; omega)
    rw [hnone1, hnone2]

theorem map_get_eq_range {α : Type} (l : List α) (f : α → Nat)
    (h : ∀ i (hi : i < l.length), f (l.get ⟨i, hi⟩) = i) :
    l.map f = List.range l.length := by
  apply List.ext_getElem (by simp)
  intro i h1 h2
  rw [List.getElem_map, List.getElem_range]
  exact h i (by simpa using h1)

theorem maxNat_range {n : Nat} (hn : 0 < n) :
    maxNat (List.range n) + 1 = n := by
  have h1 : maxNat (List.range n) ≤ n - 1 :=
    maxNat_le (fun x hx => by have := List.mem_range.mp hx; omega)
  have h2 : n - 1 ≤ maxNat (List.range n) :=
    le_maxNat_of_mem (List.mem_range.mpr (by omega))
  omega

theorem create_vector_noshape_eq {α : Type} (idx : List Nat) (vals : List α)
    (fill_value : α) (h : idx ≠ []) :
    create_vector idx vals fill_value none =
      some (scatter (List.replicate (maxNat idx + 1) fill_value)
        (idx.zip vals)) := by
  cases idx with
  | nil => simp at h
  | cons x xs => rfl

/-- With the spec's key invariant (`key` of the `i`-th row is `i`), the
`vlabels` vector is exactly the `labels` column in row order. -/
theorem vlabels_eq_labels (a : MatrixAccessor)
    (hc : a.cache_flat_vars = none)
    (hne : a.parent.vars_flat.rows ≠ [])
    (hkey : ∀ i (hi : i < a.parent.vars_flat.rows.length),
      (a.parent.vars_flat.rows.get ⟨i, hi⟩).key = i) :
    (a.vlabels).1 = some (a.parent.vars_flat.rows.map VarRow.labels) := by
  have hfv : a.flat_vars = (a.parent.vars_flat,
      { a with cache_flat_vars := some a.parent.vars_flat }) := by
    unfold MatrixAccessor.flat_vars
    rw [hc]
  show (create_vector ((a.flat_vars).1.rows.map VarRow.key)
      ((a.flat_vars).1.rows.map VarRow.labels) (-1) none) = _
  rw [hfv]
  set rows := a.parent.vars_flat.rows with hrows
  have hkeys : rows.map VarRow.key = List.range rows.length :=
    map_get_eq_range rows VarRow.key hkey
  have hpos : 0 < rows.length := List.length_pos.mpr hne
  rw [create_vector_noshape_eq _ _ _
    (by rw [hkeys]; exact List.ne_nil_of_length_pos (by simpa using hpos))]
  rw [hkeys, maxNat_range hpos]
  have hlen : rows.length = (rows.map VarRow.labels).length := by simp
  rw [hlen, scatter_replicate_range]

/-- C2: while the model's status is not `"ok"`, a (first) request of the
solution vector or of the dual vector fails immediately with the
`ValueError "Model is not optimized."` condition — no partial result. -/
theorem sol_dual_not_optimized (a : MatrixAccessor)
    (hst : a.parent.status ≠ "ok") (hs : a.cache_sol = none)
    (hd : a.cache_dual = none) :
    (a.sol).1 = .error (.valueError "Model is not optimized.") ∧
    (a.dual).1 = .error (.valueError "Model is not optimized.") := by
  unfold MatrixAccessor.sol MatrixAccessor.dual
  rw [hs, hd]
  simp [hst]

/-- C2 witness: a concrete unsolved model. -/
theorem sol_dual_not_optimized_witness :
    ((MatrixAccessor.init ⟨"warning", ⟨[], false⟩, ⟨[], false⟩,
      .linear [], fun _ _ => 0⟩).sol).1
      = .error (.valueError "Model is not optimized.") ∧
    ((MatrixAccessor.init ⟨"warning", ⟨[], false⟩, ⟨[], false⟩,
      .linear [], fun _ _ => 0⟩).dual).1
      = .error (.valueError "Model is not optimized.") :=
  sol_dual_not_optimized _ (by decide) rfl rfl

/-- C3: on a model whose status is `"ok"` but whose recomputed flat
constraint table lacks the dual column, requesting the dual vector fails
with the `AttributeError` condition, which is distinct from the
`ValueError` used for the not-optimized condition. -/
theorem dual_missing_duals (a : MatrixAccessor)
    (hst : a.parent.status = "ok") (hd : a.cache_dual = none)
    (hc : a.cache_flat_cons = none)
    (hmiss : a.parent.cons_flat.hasDual = false) :
    (a.dual).1 = .error (.attributeError
      "Underlying is optimized but does not have dual values stored.") ∧
    ∀ msg, (a.dual).1 ≠ .error (.valueError msg) := by
  have h1 : (a.dual).1 = .error (.attributeError
      "Underlying is optimized but does not have dual values stored.") := by
    unfold MatrixAccessor.dual
    rw [hd]
    simp only [hst, if_pos]
    unfold MatrixAccessor.flat_cons
    rw [hc]
    simp [hmiss]
  refine ⟨h1, fun msg hcontra => ?_⟩
  rw [h1] at hcontra
  simp at hcontra

/-- C3 witness: solved model, no dual column anywhere. -/
theorem dual_missing_duals_witness :
    ((MatrixAccessor.init ⟨"ok", ⟨[], false⟩,
        ⟨[⟨0, 0, "=", some 1, none⟩], false⟩, .linear [], fun _ _ => 0⟩).dual).1
      = .error (.attributeError
        "Underlying is optimized but does not have dual values stored.") ∧
    ∀ msg, ((MatrixAccessor.init ⟨"ok", ⟨[], false⟩,
        ⟨[⟨0, 0, "=", some 1, none⟩], false⟩, .linear [], fun _ _ => 0⟩).dual).1
      ≠ .error (.valueError msg) :=
  dual_missing_duals _ rfl rfl rfl rfl

/-- C6: with an empty flat constraint table, `clabels` returns an
explicit empty integer array instead of calling the dense-vector
builder, which on an empty index set would fail (undefined max). -/
theorem clabels_empty_spec (a : MatrixAccessor)
    (hc : a.cache_flat_cons = none) (he : a.parent.cons_flat.rows = []) :
    (a.clabels).1 = some [] ∧
    create_vector ([] : List Nat) ([] : List Int) (-1) none = none := by
  constructor
  · unfold MatrixAccessor.clabels MatrixAccessor.flat_cons
    rw [hc]
    simp [he]
  · rfl

/-- C6 witness: two bounded variables and no constraints. -/
theorem clabels_empty_spec_witness :
    ((MatrixAccessor.init ⟨"initialized",
        ⟨[⟨0, 0, some 0, some 1, none⟩, ⟨1, 1, some 4, some 10, none⟩], false⟩,
        ⟨[], false⟩, .linear [], fun _ _ => 0⟩).clabels).1 = some [] ∧
    create_vector ([] : List Nat) ([] : List Int) (-1) none = none :=
  clabels_empty_spec _ rfl rfl

/-- C7: `clean_cached_properties` empties all four cache slots (the two
flat tables and the two cached vectors), so the next read of any view —
here after the model was mutated to an arbitrary new state `p` —
recomputes from the model's current state. -/
theorem clean_cached_properties_spec (a : MatrixAccessor) (p : ModelData) :
    (({ a with parent := p }).clean_cached_properties).cache_flat_vars = none ∧
    (({ a with parent := p }).clean_cached_properties).cache_flat_cons = none ∧
    (({ a with parent := p }).clean_cached_properties).cache_sol = none ∧
    (({ a with parent := p }).clean_cached_properties).cache_dual = none ∧
    ((({ a with parent := p }).clean_cached_properties).flat_vars).1
      = p.vars_flat ∧
    ((({ a with parent := p }).clean_cached_properties).flat_cons).1
      = p.cons_flat ∧
    ((({ a with parent := p }).clean_cached_properties).vlabels).1
      = create_vector (p.vars_flat.rows.map VarRow.key)
          (p.vars_flat.rows.map VarRow.labels) (-1) none :=
  ⟨rfl, rfl, rfl, rfl, rfl, rfl, rfl⟩

/-- C8: under the spec's flat-table invariants (row `i` has key `i`;
labels unique apart from the sentinel −1), scattering `(key, labels)`
with fill −1 — the `vlabels` vector — and then gathering by label
recovers the key: every non-sentinel label sits exactly at the position
given by its row's key. -/
theorem vlabels_roundtrip (a : MatrixAccessor)
    (hc : a.cache_flat_vars = none)
    (hne : a.parent.vars_flat.rows ≠ [])
    (hkey : ∀ i (hi : i < a.parent.vars_flat.rows.length),
      (a.parent.vars_flat.rows.get ⟨i, hi⟩).key = i)
    (hlab : ∀ i j (hi : i < a.parent.vars_flat.rows.length)
        (hj : j < a.parent.vars_flat.rows.length),
      (a.parent.vars_flat.rows.get ⟨i, hi⟩).labels
        = (a.parent.vars_flat.rows.get ⟨j, hj⟩).labels →
      (a.parent.vars_flat.rows.get ⟨i, hi⟩).labels ≠ -1 → i = j) :
    ∃ v, (a.vlabels).1 = some v ∧
      v.length = a.parent.vars_flat.rows.length ∧
      ∀ r ∈ a.parent.vars_flat.rows, r.labels ≠ -1 →
        v[r.key]? = some r.labels ∧
        ∀ k, v[k]? = some r.labels → k = r.key := by
  refine ⟨a.parent.vars_flat.rows.map VarRow.labels,
    vlabels_eq_labels a hc hne hkey, by simp, ?_⟩
  intro r hr hsent
  obtain ⟨⟨i, hi⟩, hri⟩ := List.mem_iff_get.mp hr
  have hkeyr : r.key = i := by rw [← hri]; exact hkey i hi
  have hmapi : ∀ k (hk : k < a.parent.vars_flat.rows.length),
      (a.parent.vars_flat.rows.map VarRow.labels)[k]?
        = some ((a.parent.vars_flat.rows.get ⟨k, hk⟩).labels) := by
    intro k hk
    rw [List.getElem?_map, List.getElem?_eq_getElem hk]
    simp [List.get_eq_getElem]
  constructor
  · rw [hkeyr, hmapi i hi, hri]
  · intro k hk
    have hklen : k < a.parent.vars_flat.rows.length := by
      by_contra hge
      rw [List.getElem?_eq_none (by simp; omega)] at hk
      exact Option.noConfusion hk
    rw [hmapi k hklen] at hk
    injection hk with hk
    rw [hkeyr]
    refine hlab k i hklen hi ?_ ?_
    · rw [hk, hri]
    · rw [hk]; exact hsent


/-- C4: for a quadratic objective, `c` keeps only the terms with the
"no variable" sentinel in one factor slot, takes the label from the slot
holding the real variable (both captured by `objTermPairs`), maps each
label to its dense key through the flat variable table, and scatters the
coefficients with fill `0.0` into a vector whose length — under the
spec's key invariant on the flat table (modelled from the spec: the
table has one row per declared variable instance with `key` values
exactly `0..N-1`) — is the full declared-variable count `N`. -/
theorem c_quadratic_spec (a : MatrixAccessor) (ts : List QuadTerm)
    (ks : List Nat)
    (hobj : a.parent.objective = .quadratic ts)
    (hc : a.cache_flat_vars = none)
    (hne : a.parent.vars_flat.rows ≠ [])
    (hkey : ∀ i (hi : i < a.parent.vars_flat.rows.length),
      (a.parent.vars_flat.rows.get ⟨i, hi⟩).key = i)
    (hks : ((objTermPairs (.quadratic ts)).map Prod.fst).mapM
      (keyOfLabel a.parent.vars_flat) = some ks) :
    ∃ v, (a.c).1 = .ok v ∧
      v.length = a.parent.vars_flat.rows.length ∧
      v = scatter
        (List.replicate a.parent.vars_flat.rows.length (some 0 : Val))
        (ks.zip ((objTermPairs (.quadratic ts)).map
          (fun q => (some q.2 : Val)))) := by
  have hfv : a.flat_vars = (a.parent.vars_flat,
      { a with cache_flat_vars := some a.parent.vars_flat }) := by
    unfold MatrixAccessor.flat_vars
    rw [hc]
  have hpos : 0 < a.parent.vars_flat.rows.length := List.length_pos.mpr hne
  have hshape : maxNat (a.parent.vars_flat.rows.map VarRow.key) + 1
      = a.parent.vars_flat.rows.length := by
    rw [map_get_eq_range _ _ hkey]
    exact maxNat_range hpos
  have hempty : a.parent.vars_flat.rows.isEmpty = false := by
    cases h : a.parent.vars_flat.rows with
    | nil => exact absurd h hne
    | cons _ _ => rfl
  refine ⟨_, ?_, ?_, rfl⟩
  · show (MatrixAccessor.c a).1 = _
    unfold MatrixAccessor.c
    simp only [hfv, hobj, hks, hempty, Bool.false_eq_true, if_false,
      create_vector]
    rw [hshape]
  · rw [scatter_length, List.length_replicate]

/-- C5: for a purely linear objective the `Q` accessor returns absence
(`None`), not an empty matrix; for a quadratic objective it returns the
objective expression's full quadratic coefficient matrix reindexed on
both axes by the variable-labels vector (under the spec's key
invariant, the labels column of the flat variable table in row order). -/
theorem Q_linear_quadratic_spec (a : MatrixAccessor) :
    (a.parent.is_linear = true → (a.Q).1 = .ok none) ∧
    (a.parent.is_linear = false → a.cache_flat_vars = none →
      a.parent.vars_flat.rows ≠ [] →
      (∀ i (hi : i < a.parent.vars_flat.rows.length),
        (a.parent.vars_flat.rows.get ⟨i, hi⟩).key = i) →
      (a.Q).1 = .ok (some
        ((a.parent.vars_flat.rows.map VarRow.labels).map (fun i =>
          (a.parent.vars_flat.rows.map VarRow.labels).map (fun j =>
            a.parent.QfullM i j))))) := by
  constructor
  · intro hlin
    unfold MatrixAccessor.Q
    simp [hlin]
  · intro hnl hc hne hkey
    unfold MatrixAccessor.Q
    simp only [hnl, Bool.false_eq_true, if_false]
    have hvl := vlabels_eq_labels a hc hne hkey
    simp only [hvl]

theorem sol_cases (a : MatrixAccessor) :
    (∃ v, a.cache_sol = some v ∧ a.sol = (.ok v, a)) ∨
    (a.cache_sol = none ∧ a.parent.status ≠ "ok" ∧
      a.sol = (.error (.valueError "Model is not optimized."), a)) ∨
    (a.cache_sol = none ∧ a.parent.status = "ok" ∧
      ∃ (t2 : VarTable) (a2 : MatrixAccessor),
        a2.parent = a.parent ∧
        a2.cache_sol = none ∧
        a2.cache_dual = a.cache_dual ∧
        a2.cache_flat_cons = a.cache_flat_cons ∧
        (a2.cache_flat_vars = a.cache_flat_vars ∨
          a2.cache_flat_vars = some a.parent.vars_flat) ∧
        a.sol = (if t2.hasSolution = true then
            match create_vector (t2.rows.map VarRow.key)
                (t2.rows.map VarRow.solution) none none with
            | some v => (.ok v, { a2 with cache_sol := some v })
            | none =>
              (.error (.valueError "max() arg is an empty sequence"), a2)
          else (.error (.attributeError
            "'DataFrame' object has no attribute 'solution'"), a2))) := by
  obtain ⟨pm, cfv, cfc, cs, cd⟩ := a
  cases cs with
  | some w => exact .inl ⟨w, rfl, rfl⟩
  | none =>
    by_cases hst : pm.status = "ok"
    · refine .inr (.inr ⟨rfl, hst, ?_⟩)
      cases cfv with
      | some t =>
        by_cases hsol : t.hasSolution = true
        · refine ⟨t, ⟨pm, some t, cfc, none, cd⟩, rfl, rfl, rfl, rfl,
            .inl rfl, ?_⟩
          dsimp only [MatrixAccessor.sol, MatrixAccessor.flat_vars]
          rw [if_pos hst, if_pos hsol, if_pos hsol]
        · refine ⟨pm.vars_flat, ⟨pm, some pm.vars_flat, cfc, none, cd⟩,
            rfl, rfl, rfl, rfl, .inr rfl, ?_⟩
          dsimp only [MatrixAccessor.sol, MatrixAccessor.flat_vars]
          rw [if_pos hst, if_neg hsol]
      | none =>
        by_cases hsol : pm.vars_flat.hasSolution = true
        · refine ⟨pm.vars_flat, ⟨pm, some pm.vars_flat, cfc, none, cd⟩,
            rfl, rfl, rfl, rfl, .inr rfl, ?_⟩
          dsimp only [MatrixAccessor.sol, MatrixAccessor.flat_vars]
          rw [if_pos hst, if_pos hsol]
        · refine ⟨pm.vars_flat, ⟨pm, some pm.vars_flat, cfc, none, cd⟩,
            rfl, rfl, rfl, rfl, .inr rfl, ?_⟩
          dsimp only [MatrixAccessor.sol, MatrixAccessor.flat_vars]
          rw [if_pos hst, if_neg hsol]
    · refine .inr (.inl ⟨rfl, hst, ?_⟩)
      dsimp only [MatrixAccessor.sol]
      rw [if_neg hst]

theorem dual_cases (a : MatrixAccessor) :
    (∃ v, a.cache_dual = some v ∧ a.dual = (.ok v, a)) ∨
    (a.cache_dual = none ∧ a.parent.status ≠ "ok" ∧
      a.dual = (.error (.valueError "Model is not optimized."), a)) ∨
    (a.cache_dual = none ∧ a.parent.status = "ok" ∧
      ∃ (t2 : ConTable) (a2 : MatrixAccessor),
        a2.parent = a.parent ∧
        a2.cache_dual = none ∧
        a2.cache_sol = a.cache_sol ∧
        a2.cache_flat_vars = a.cache_flat_vars ∧
        (a2.cache_flat_cons = a.cache_flat_cons ∨
          a2.cache_flat_cons = some a.parent.cons_flat) ∧
        a.dual = (if t2.hasDual = true then
            match create_vector (t2.rows.map ConRow.key)
                (t2.rows.map ConRow.dual) none none with
            | some v => (.ok v, { a2 with cache_dual := some v })
            | none =>
              (.error (.valueError "max() arg is an empty sequence"), a2)
          else (.error (.attributeError
            "Underlying is optimized but does not have dual values stored."),
            a2))) := by
  obtain ⟨pm, cfv, cfc, cs, cd⟩ := a
  cases cd with
  | some w => exact .inl ⟨w, rfl, rfl⟩
  | none =>
    by_cases hst : pm.status = "ok"
    · refine .inr (.inr ⟨rfl, hst, ?_⟩)
      cases cfc with
      | some t =>
        by_cases hd : t.hasDual = true
        · refine ⟨t, ⟨pm, cfv, some t, cs, none⟩, rfl, rfl, rfl, rfl,
            .inl rfl, ?_⟩
          dsimp only [MatrixAccessor.dual, MatrixAccessor.flat_cons]
          rw [if_pos hst, if_pos hd, if_pos hd]
        · refine ⟨pm.cons_flat, ⟨pm, cfv, some pm.cons_flat, cs, none⟩,
            rfl, rfl, rfl, rfl, .inr rfl, ?_⟩
          dsimp only [MatrixAccessor.dual, MatrixAccessor.flat_cons]
          rw [if_pos hst, if_neg hd]
      | none =>
        by_cases hd : pm.cons_flat.hasDual = true
        · refine ⟨pm.cons_flat, ⟨pm, cfv, some pm.cons_flat, cs, none⟩,
            rfl, rfl, rfl, rfl, .inr rfl, ?_⟩
          dsimp only [MatrixAccessor.dual, MatrixAccessor.flat_cons]
          rw [if_pos hst, if_pos hd]
        · refine ⟨pm.cons_flat, ⟨pm, cfv, some pm.cons_flat, cs, none⟩,
            rfl, rfl, rfl, rfl, .inr rfl, ?_⟩
          dsimp only [MatrixAccessor.dual, MatrixAccessor.flat_cons]
          rw [if_pos hst, if_neg hd]
    · refine .inr (.inl ⟨rfl, hst, ?_⟩)
      dsimp only [MatrixAccessor.dual]
      rw [if_neg hst]

theorem sol_cache_of_ok (a : MatrixAccessor) (v : List Val)
    (h : (a.sol).1 = .ok v) : ((a.sol).2).cache_sol = some v := by
  rcases sol_cases a with ⟨w, hcw, heq⟩ | ⟨_, _, heq⟩ |
    ⟨_, _, t2, a2, _, _, _, _, _, heq⟩
  · rw [heq] at h ⊢
    injection h with h
    rw [hcw, h]
  · rw [heq] at h
    exact absurd h (by simp)
  · by_cases hsol : t2.hasSolution = true
    · rw [if_pos hsol] at heq
      rw [heq] at h ⊢
      cases hcv : create_vector (t2.rows.map VarRow.key)
          (t2.rows.map VarRow.solution) none none with
      | some w =>
        rw [hcv] at h
        injection h with h
        show some w = some v
        rw [h]
      | none =>
        rw [hcv] at h
        exact absurd h (by simp)
    · rw [if_neg hsol] at heq
      rw [heq] at h
      exact absurd h (by simp)

theorem dual_cache_of_ok (a : MatrixAccessor) (v : List Val)
    (h : (a.dual).1 = .ok v) : ((a.dual).2).cache_dual = some v := by
  rcases dual_cases a with ⟨w, hcw, heq⟩ | ⟨_, _, heq⟩ |
    ⟨_, _, t2, a2, _, _, _, _, _, heq⟩
  · rw [heq] at h ⊢
    injection h with h
    rw [hcw, h]
  · rw [heq] at h
    exact absurd h (by simp)
  · by_cases hd : t2.hasDual = true
    · rw [if_pos hd] at heq
      rw [heq] at h ⊢
      cases hcv : create_vector (t2.rows.map ConRow.key)
          (t2.rows.map ConRow.dual) none none with
      | some w =>
        rw [hcv] at h
        injection h with h
        show some w = some v
        rw [h]
      | none =>
        rw [hcv] at h
        exact absurd h (by simp)
    · rw [if_neg hd] at heq
      rw [heq] at h
      exact absurd h (by simp)

theorem sol_of_cache (b : MatrixAccessor) (v : List Val)
    (h : b.cache_sol = some v) : (b.sol).1 = .ok v := by
  rcases sol_cases b with ⟨w, hcw, heq⟩ | ⟨hcs, _, _⟩ | ⟨hcs, _, _⟩
  · rw [heq]
    rw [hcw] at h
    injection h with h
    rw [h]
  · rw [hcs] at h
    exact absurd h (by simp)
  · rw [hcs] at h
    exact absurd h (by simp)

theorem dual_of_cache (b : MatrixAccessor) (v : List Val)
    (h : b.cache_dual = some v) : (b.dual).1 = .ok v := by
  rcases dual_cases b with ⟨w, hcw, heq⟩ | ⟨hcs, _, _⟩ | ⟨hcs, _, _⟩
  · rw [heq]
    rw [hcw] at h
    injection h with h
    rw [h]
  · rw [hcs] at h
    exact absurd h (by simp)
  · rw [hcs] at h
    exact absurd h (by simp)

/-- C10: once the solution (resp. dual) vector has been computed and
cached, a later read returns the cached vector without re-checking the
model status: even after the status is mutated to any string `s`, the
read still succeeds with the previously cached value. -/
theorem sol_dual_cached_ignore_status (a : MatrixAccessor) (s : String) :
    (∀ v, (a.sol).1 = .ok v →
      (({ (a.sol).2 with parent :=
          { ((a.sol).2).parent with status := s } }).sol).1 = .ok v) ∧
    (∀ v, (a.dual).1 = .ok v →
      (({ (a.dual).2 with parent :=
          { ((a.dual).2).parent with status := s } }).dual).1 = .ok v) := by
  constructor
  · intro v h
    exact sol_of_cache _ v (sol_cache_of_ok a v h)
  · intro v h
    exact dual_of_cache _ v (dual_cache_of_ok a v h)

/-- C9 counterexample: a failed dual access can change another cached
view.  With status `"ok"`, a stale cached flat constraint table without
a dual column, and a current model table that still lacks duals, `dual`
raises the `AttributeError` condition and also replaces the cached flat
constraint table with the recomputed one. -/
theorem dual_failure_changes_flat_cons_cache :
    ((MatrixAccessor.mk
        ⟨"ok", ⟨[], false⟩, ⟨[⟨0, 0, "=", some 1, none⟩], false⟩,
          .linear [], fun _ _ => 0⟩
        none (some ⟨[], false⟩) none none).dual).1
      = .error (.attributeError
        "Underlying is optimized but does not have dual values stored.") ∧
    ((MatrixAccessor.mk
        ⟨"ok", ⟨[], false⟩, ⟨[⟨0, 0, "=", some 1, none⟩], false⟩,
          .linear [], fun _ _ => 0⟩
        none (some ⟨[], false⟩) none none).dual).2.cache_flat_cons
      ≠ (MatrixAccessor.mk
        ⟨"ok", ⟨[], false⟩, ⟨[⟨0, 0, "=", some 1, none⟩], false⟩,
          .linear [], fun _ _ => 0⟩
        none (some ⟨[], false⟩) none none).cache_flat_cons := by
  refine ⟨rfl, ?_⟩
  intro hcontra
  have h2 : (some (ConTable.mk [⟨0, 0, "=", some 1, none⟩] false)
      : Option ConTable) = some (ConTable.mk [] false) := hcontra
  simp at h2

/-- C9 (amended): a failed solution- or dual-vector access leaves the
other properties' caches unchanged and never stores a result for the
failing property itself; the only state it may touch is its backing
flat-table cache (flat variables for `sol`, flat constraints for
`dual`), which it either leaves unchanged or replaces with the freshly
recomputed current table. -/
theorem failed_access_frame (a : MatrixAccessor) :
    (∀ e a1, a.sol = (.error e, a1) →
      a1.cache_flat_cons = a.cache_flat_cons ∧
      a1.cache_dual = a.cache_dual ∧
      a1.cache_sol = a.cache_sol ∧
      (a1.cache_flat_vars = a.cache_flat_vars ∨
        a1.cache_flat_vars = some a.parent.vars_flat)) ∧
    (∀ e a1, a.dual = (.error e, a1) →
      a1.cache_flat_vars = a.cache_flat_vars ∧
      a1.cache_sol = a.cache_sol ∧
      a1.cache_dual = a.cache_dual ∧
      (a1.cache_flat_cons = a.cache_flat_cons ∨
        a1.cache_flat_cons = some a.parent.cons_flat)) := by
  constructor
  · intro e a1 h
    rcases sol_cases a with ⟨w, hcw, heq⟩ | ⟨hcs, hst, heq⟩ |
      ⟨hcs, hst, t2, a2, hp, hs2, hd2, hfc2, hfv2, heq⟩
    · rw [heq] at h
      injection h with h1 h2
      exact absurd h1 (by simp)
    · rw [heq] at h
      injection h with h1 h2
      subst h2
      exact ⟨rfl, rfl, rfl, .inl rfl⟩
    · by_cases hsol : t2.hasSolution = true
      · rw [if_pos hsol] at heq
        rw [heq] at h
        cases hcv : create_vector (t2.rows.map VarRow.key)
            (t2.rows.map VarRow.solution) none none with
        | some w =>
          rw [hcv] at h
          injection h with h1 h2
          exact absurd h1 (by simp)
        | none =>
          rw [hcv] at h
          injection h with h1 h2
          subst h2
          exact ⟨hfc2, hd2, hs2.trans hcs.symm, hfv2⟩
      · rw [if_neg hsol] at heq
        rw [heq] at h
        injection h with h1 h2
        subst h2
        exact ⟨hfc2, hd2, hs2.trans hcs.symm, hfv2⟩
  · intro e a1 h
    rcases dual_cases a with ⟨w, hcw, heq⟩ | ⟨hcs, hst, heq⟩ |
      ⟨hcs, hst, t2, a2, hp, hd2, hs2, hfv2, hfc2, heq⟩
    · rw [heq] at h
      injection h with h1 h2
      exact absurd h1 (by simp)
    · rw [heq] at h
      injection h with h1 h2
      subst h2
      exact ⟨rfl, rfl, rfl, .inl rfl⟩
    · by_cases hd : t2.hasDual = true
      · rw [if_pos hd] at heq
        rw [heq] at h
        cases hcv : create_vector (t2.rows.map ConRow.key)
            (t2.rows.map ConRow.dual) none none with
        | some w =>
          rw [hcv] at h
          injection h with h1 h2
          exact absurd h1 (by simp)
        | none =>
          rw [hcv] at h
          injection h with h1 h2
          subst h2
          exact ⟨hfv2, hs2, hd2.trans hcs.symm, hfc2⟩
      · rw [if_neg hd] at heq
        rw [heq] at h
        injection h with h1 h2
        subst h2
        exact ⟨hfv2, hs2, hd2.trans hcs.symm, hfc2⟩

/-- C9 (amended) witness: the same failing dual access as the
counterexample satisfies the amended frame property. -/
theorem failed_access_frame_witness :
    (MatrixAccessor.mk
        ⟨"ok", ⟨[], false⟩, ⟨[⟨0, 0, "=", some 1, none⟩], false⟩,
          .linear [], fun _ _ => 0⟩
        none (some ⟨[⟨0, 0, "=", some 1, none⟩], false⟩) none
        none).cache_flat_vars
      = (MatrixAccessor.mk
        ⟨"ok", ⟨[], false⟩, ⟨[⟨0, 0, "=", some 1, none⟩], false⟩,
          .linear [], fun _ _ => 0⟩
        none (some ⟨[], false⟩) none none).cache_flat_vars ∧
    (MatrixAccessor.mk
        ⟨"ok", ⟨[], false⟩, ⟨[⟨0, 0, "=", some 1, none⟩], false⟩,
          .linear [], fun _ _ => 0⟩
        none (some ⟨[⟨0, 0, "=", some 1, none⟩], false⟩) none
        none).cache_sol
      = (MatrixAccessor.mk
        ⟨"ok", ⟨[], false⟩, ⟨[⟨0, 0, "=", some 1, none⟩], false⟩,
          .linear [], fun _ _ => 0⟩
        none (some ⟨[], false⟩) none none).cache_sol ∧
    (MatrixAccessor.mk
        ⟨"ok", ⟨[], false⟩, ⟨[⟨0, 0, "=", some 1, none⟩], false⟩,
          .linear [], fun _ _ => 0⟩
        none (some ⟨[⟨0, 0, "=", some 1, none⟩], false⟩) none
        none).cache_dual
      = (MatrixAccessor.mk
        ⟨"ok", ⟨[], false⟩, ⟨[⟨0, 0, "=", some 1, none⟩], false⟩,
          .linear [], fun _ _ => 0⟩
        none (some ⟨[], false⟩) none none).cache_dual ∧
    ((MatrixAccessor.mk
        ⟨"ok", ⟨[], false⟩, ⟨[⟨0, 0, "=", some 1, none⟩], false⟩,
          .linear [], fun _ _ => 0⟩
        none (some ⟨[⟨0, 0, "=", some 1, none⟩], false⟩) none
        none).cache_flat_cons
      = (MatrixAccessor.mk
        ⟨"ok", ⟨[], false⟩, ⟨[⟨0, 0, "=", some 1, none⟩], false⟩,
          .linear [], fun _ _ => 0⟩
        none (some ⟨[], false⟩) none none).cache_flat_cons ∨
     (MatrixAccessor.mk
        ⟨"ok", ⟨[], false⟩, ⟨[⟨0, 0, "=", some 1, none⟩], false⟩,
          .linear [], fun _ _ => 0⟩
        none (some ⟨[⟨0, 0, "=", some 1, none⟩], false⟩) none
        none).cache_flat_cons
      = some (ModelData.mk "ok" ⟨[], false⟩
          ⟨[⟨0, 0, "=", some 1, none⟩], false⟩
          (.linear []) (fun _ _ => 0)).cons_flat) :=
  (failed_access_frame (MatrixAccessor.mk
      ⟨"ok", ⟨[], false⟩, ⟨[⟨0, 0, "=", some 1, none⟩], false⟩,
        .linear [], fun _ _ => 0⟩
      none (some ⟨[], false⟩) none none)).2
    (.attributeError
      "Underlying is optimized but does not have dual values stored.")
    (MatrixAccessor.mk
      ⟨"ok", ⟨[], false⟩, ⟨[⟨0, 0, "=", some 1, none⟩], false⟩,
        .linear [], fun _ _ => 0⟩
      none (some ⟨[⟨0, 0, "=", some 1, none⟩], false⟩) none none)
    rfl

/-- C10 witness: a solved model with solution and dual values; after the
first successful reads, mutating the status away from `"ok"` leaves both
reads succeeding with the cached vectors. -/
theorem sol_dual_cached_ignore_status_witness :
    (({ ((MatrixAccessor.init ⟨"ok",
        ⟨[⟨0, 0, some 0, some 1, some 5⟩], true⟩,
        ⟨[⟨0, 0, "=", some 1, some 2⟩], true⟩,
        .linear [], fun _ _ => 0⟩).sol).2 with parent :=
      { (((MatrixAccessor.init ⟨"ok",
        ⟨[⟨0, 0, some 0, some 1, some 5⟩], true⟩,
        ⟨[⟨0, 0, "=", some 1, some 2⟩], true⟩,
        .linear [], fun _ _ => 0⟩).sol).2).parent with
          status := "warning" } }).sol).1 = .ok [some 5] ∧
    (({ ((MatrixAccessor.init ⟨"ok",
        ⟨[⟨0, 0, some 0, some 1, some 5⟩], true⟩,
        ⟨[⟨0, 0, "=", some 1, some 2⟩], true⟩,
        .linear [], fun _ _ => 0⟩).dual).2 with parent :=
      { (((MatrixAccessor.init ⟨"ok",
        ⟨[⟨0, 0, some 0, some 1, some 5⟩], true⟩,
        ⟨[⟨0, 0, "=", some 1, some 2⟩], true⟩,
        .linear [], fun _ _ => 0⟩).dual).2).parent with
          status := "warning" } }).dual).1 = .ok [some 2] :=
  ⟨(sol_dual_cached_ignore_status (MatrixAccessor.init ⟨"ok",
      ⟨[⟨0, 0, some 0, some 1, some 5⟩], true⟩,
      ⟨[⟨0, 0, "=", some 1, some 2⟩], true⟩,
      .linear [], fun _ _ => 0⟩) "warning").1 [some 5] rfl,
   (sol_dual_cached_ignore_status (MatrixAccessor.init ⟨"ok",
      ⟨[⟨0, 0, some 0, some 1, some 5⟩], true⟩,
      ⟨[⟨0, 0, "=", some 1, some 2⟩], true⟩,
      .linear [], fun _ _ => 0⟩) "warning").2 [some 2] rfl⟩

/-- C1 witness: duplicate index 2 is last-write-wins, position 1 is
fill. -/
theorem create_vector_noshape_spec_witness :
    ∃ v, create_vector [2, 0, 2] [10, 20, 30] (7 : Int) none = some v ∧
      v.length = maxNat [2, 0, 2] + 1 ∧
      (∀ i q, (([2, 0, 2].zip [10, 20, 30]).filter
          (fun p => p.1 == i)).getLast? = some q → v[i]? = some q.2) ∧
      (∀ i, i < maxNat [2, 0, 2] + 1 → i ∉ [2, 0, 2] →
        v[i]? = some (7 : Int)) :=
  create_vector_noshape_spec [2, 0, 2] [10, 20, 30] 7 (by decide) (by decide)

/-- C8 witness: two variables with labels 7 and 9. -/
theorem vlabels_roundtrip_witness :
    ∃ v, ((MatrixAccessor.init ⟨"ok",
        ⟨[⟨0, 7, none, none, none⟩, ⟨1, 9, none, none, none⟩], false⟩,
        ⟨[], false⟩, .linear [], fun _ _ => 0⟩).vlabels).1 = some v ∧
      v.length = (MatrixAccessor.init ⟨"ok",
        ⟨[⟨0, 7, none, none, none⟩, ⟨1, 9, none, none, none⟩], false⟩,
        ⟨[], false⟩, .linear [],
        fun _ _ => 0⟩).parent.vars_flat.rows.length ∧
      ∀ r ∈ (MatrixAccessor.init ⟨"ok",
        ⟨[⟨0, 7, none, none, none⟩, ⟨1, 9, none, none, none⟩], false⟩,
        ⟨[], false⟩, .linear [],
        fun _ _ => 0⟩).parent.vars_flat.rows, r.labels ≠ -1 →
        v[r.key]? = some r.labels ∧
        ∀ k, v[k]? = some r.labels → k = r.key :=
  vlabels_roundtrip (MatrixAccessor.init ⟨"ok",
      ⟨[⟨0, 7, none, none, none⟩, ⟨1, 9, none, none, none⟩], false⟩,
      ⟨[], false⟩, .linear [], fun _ _ => 0⟩)
    rfl (List.cons_ne_nil _ _)
    (by
      intro i hi
      have hi2 : i < 2 := hi
      interval_cases i <;> rfl)
    (by
      intro i j hi hj h1 h2
      have hi2 : i < 2 := hi
      have hj2 : j < 2 := hj
      interval_cases i <;> interval_cases j <;>
        first
        | rfl
        | exact absurd (show (7 : Int) = 9 from h1) (by decide)
        | exact absurd (show (9 : Int) = 7 from h1) (by decide))

/-- C4 witness: an objective of a quadratic term over labels 10 and 11
plus a linear term on label 10; only the linear term survives the
filter, scattered at key 0 with fill 0. -/
theorem c_quadratic_spec_witness :
    ∃ v, ((MatrixAccessor.init ⟨"ok",
        ⟨[⟨0, 10, some 0, some 1, none⟩, ⟨1, 11, some 4, some 8, none⟩],
          false⟩,
        ⟨[], false⟩, .quadratic [⟨10, 11, 3⟩, ⟨10, -1, 2⟩],
        fun _ _ => 0⟩).c).1 = .ok v ∧
      v.length = (MatrixAccessor.init ⟨"ok",
        ⟨[⟨0, 10, some 0, some 1, none⟩, ⟨1, 11, some 4, some 8, none⟩],
          false⟩,
        ⟨[], false⟩, .quadratic [⟨10, 11, 3⟩, ⟨10, -1, 2⟩],
        fun _ _ => 0⟩).parent.vars_flat.rows.length ∧
      v = scatter
        (List.replicate (MatrixAccessor.init ⟨"ok",
          ⟨[⟨0, 10, some 0, some 1, none⟩, ⟨1, 11, some 4, some 8, none⟩],
            false⟩,
          ⟨[], false⟩, .quadratic [⟨10, 11, 3⟩, ⟨10, -1, 2⟩],
          fun _ _ => 0⟩).parent.vars_flat.rows.length (some 0 : Val))
        ([0].zip ((objTermPairs
          (.quadratic [⟨10, 11, 3⟩, ⟨10, -1, 2⟩])).map
          (fun q => (some q.2 : Val)))) :=
  c_quadratic_spec (MatrixAccessor.init ⟨"ok",
      ⟨[⟨0, 10, some 0, some 1, none⟩, ⟨1, 11, some 4, some 8, none⟩],
        false⟩,
      ⟨[], false⟩, .quadratic [⟨10, 11, 3⟩, ⟨10, -1, 2⟩],
      fun _ _ => 0⟩)
    [⟨10, 11, 3⟩, ⟨10, -1, 2⟩] [0] rfl rfl (List.cons_ne_nil _ _)
    (by
      intro i hi
      have hi2 : i < 2 := hi
      interval_cases i <;> rfl)
    rfl

/-- C5 witness: a linear model yields absence; a quadratic model over
labels 10 and 11 yields the reindexed matrix. -/
theorem Q_linear_quadratic_spec_witness :
    ((MatrixAccessor.init ⟨"ok", ⟨[], false⟩, ⟨[], false⟩,
        .linear [], fun _ _ => 0⟩).Q).1 = .ok none ∧
    ((MatrixAccessor.init ⟨"ok",
        ⟨[⟨0, 10, none, none, none⟩, ⟨1, 11, none, none, none⟩], false⟩,
        ⟨[], false⟩, .quadratic [⟨10, 11, 3⟩],
        fun i j => (i * j : ℚ)⟩).Q).1 = .ok (some
      (((MatrixAccessor.init ⟨"ok",
        ⟨[⟨0, 10, none, none, none⟩, ⟨1, 11, none, none, none⟩], false⟩,
        ⟨[], false⟩, .quadratic [⟨10, 11, 3⟩],
        fun i j => (i * j : ℚ)⟩).parent.vars_flat.rows.map
          VarRow.labels).map (fun i =>
        ((MatrixAccessor.init ⟨"ok",
        ⟨[⟨0, 10, none, none, none⟩, ⟨1, 11, none, none, none⟩], false⟩,
        ⟨[], false⟩, .quadratic [⟨10, 11, 3⟩],
        fun i j => (i * j : ℚ)⟩).parent.vars_flat.rows.map
          VarRow.labels).map (fun j =>
          (MatrixAccessor.init ⟨"ok",
        ⟨[⟨0, 10, none, none, none⟩, ⟨1, 11, none, none, none⟩], false⟩,
        ⟨[], false⟩, .quadratic [⟨10, 11, 3⟩],
        fun i j => (i * j : ℚ)⟩).parent.QfullM i j)))) :=
  ⟨(Q_linear_quadratic_spec (MatrixAccessor.init ⟨"ok", ⟨[], false⟩,
      ⟨[], false⟩, .linear [], fun _ _ => 0⟩)).1 rfl,
   (Q_linear_quadratic_spec (MatrixAccessor.init ⟨"ok",
      ⟨[⟨0, 10, none, none, none⟩, ⟨1, 11, none, none, none⟩], false⟩,
      ⟨[], false⟩, .quadratic [⟨10, 11, 3⟩],
      fun i j => (i * j : ℚ)⟩)).2 rfl rfl (List.cons_ne_nil _ _)
    (by
      intro i hi
      have hi2 : i < 2 := hi
      interval_cases i <;> rfl)⟩

end Linopy
